import Mathlib

/-!
Verification model of `scripts/make_town_year_agg.py`, a pandas ETL script
that reads a real-estate sales CSV in chunks, cleans each chunk, computes
per-chunk grouped aggregates, merges them globally, and writes three CSV
exports.  The model is a shallow embedding: pandas library calls are
reflected by executable Lean functions with the same observable behaviour
on the data the script manipulates.

Modelling conventions, in correspondence with the script:
* A raw CSV row (`RawRow`) stores the *results* of the pandas coercions the
  script applies: `saleAmount`/`salesRatio` hold the outcome of
  `pd.to_numeric(..., errors="coerce")` (`none` = the cell was empty or
  failed numeric parsing, i.e. NaN), `dateRecordedYear` holds the outcome of
  `pd.to_datetime(..., errors="coerce").dt.year`, and `listYear` the outcome
  of `pd.to_numeric(...).astype("Int64")`.  String columns hold
  `Option String` with `none` for a missing (NaN) cell.
* `pyAstype` models `.astype(str)`: a NaN cell becomes the literal string
  "nan".  This is the pandas behaviour that makes the later
  `dropna(subset=["Town", ...])` and `.fillna(...)` calls inoperative on
  string columns.
* `pyStrip` models `.str.strip()` and `pyTitle` models `.str.title()`
  (ASCII fragment: `Char.toUpper`/`Char.toLower`, letters as cased
  characters).
* Exact rationals stand in for pandas float64 values.
-/

/-! ### Python string primitives -/

/-- `.astype(str)` on one cell: a NaN (missing) cell becomes the string
"nan"; a present string is unchanged. -/
def pyAstype (s : Option String) : String :=
  match s with
  | none => "nan"
  | some t => t

/-- Remove trailing whitespace: reverse, drop leading whitespace, reverse. -/
def dropTrail (cs : List Char) : List Char :=
  (cs.reverse.dropWhile Char.isWhitespace).reverse

/-- `str.strip()` on a list of characters: drop leading and trailing
whitespace. -/
def pyStripList (cs : List Char) : List Char :=
  dropTrail (cs.dropWhile Char.isWhitespace)

/-- `str.strip()`. -/
def pyStrip (s : String) : String :=
  String.mk (pyStripList s.data)

/-- One pass of `str.title()`: the Bool argument records whether the
previous character was cased (a letter); a letter after a non-letter is
uppercased, a letter after a letter is lowercased, non-letters pass
through. -/
def pyTitleAux : Bool → List Char → List Char
  | _, [] => []
  | prev, c :: cs =>
    if c.isAlpha then
      (if prev then c.toLower else c.toUpper) :: pyTitleAux true cs
    else
      c :: pyTitleAux false cs

/-- `str.title()`. -/
def pyTitle (s : String) : String :=
  String.mk (pyTitleAux false s.data)

/-- Town normalisation from `tidy_chunk` line 39:
`.astype(str).str.strip().str.title()` applied after `pyAstype`. -/
def normTown (s : String) : String :=
  pyTitle (pyStrip s)

/-! ### Data model -/

/-- A raw CSV row restricted to `USECOLS`, with numeric/date cells already
holding the result of the script's coercions (see the header comment). -/
structure RawRow where
  serialNumber : Option String
  listYear : Option Int
  dateRecordedYear : Option Int
  town : Option String
  saleAmount : Option Rat
  salesRatio : Option Rat
  propertyType : Option String
  residentialType : Option String
deriving DecidableEq

/-- A row that survived the cleaning step of `tidy_chunk` (lines 29-43):
`Town`, `Year`, `Sale Amount` are present; `Sales Ratio` may still be
missing because `dropna` does not list it. -/
structure CleanRow where
  town : String
  year : Int
  saleAmount : Rat
  salesRatio : Option Rat
  propertyType : String
  residentialType : String
deriving DecidableEq

/-- Line 36: `df["Year"] = date_year.fillna(list_year)` — prefer the year
parsed from `Date Recorded`, fall back to `List Year`. -/
def pyYear (r : RawRow) : Option Int :=
  match r.dateRecordedYear with
  | some y => some y
  | none => r.listYear

/-- Cleaning of one row (lines 31-43 of `tidy_chunk`).  After
`.astype(str)` the three string columns can never be NaN, so
`dropna(subset=["Town", "Year", "Sale Amount"])` drops a row exactly when
the derived `Year` or the coerced `Sale Amount` is missing. -/
def tidyRow (r : RawRow) : Option CleanRow :=
  match pyYear r, r.saleAmount with
  | some y, some amt =>
    some { town := normTown (pyAstype r.town)
           year := y
           saleAmount := amt
           salesRatio := r.salesRatio
           propertyType := pyStrip (pyAstype r.propertyType)
           residentialType := pyStrip (pyAstype r.residentialType) }
  | _, _ => none

/-- The cleaning step of `tidy_chunk` applied to a whole chunk. -/
def cleanChunk (rows : List RawRow) : List CleanRow :=
  rows.filterMap tidyRow

/-! ### Statistics (pandas `count` / `median` / `mean`) -/

/-- Insert into a sorted list of rationals. -/
def insertSorted (x : Rat) : List Rat → List Rat
  | [] => [x]
  | y :: ys => if x ≤ y then x :: y :: ys else y :: insertSorted x ys

/-- Sort a list of rationals (insertion sort). -/
def sortRats (xs : List Rat) : List Rat :=
  xs.foldr insertSorted []

/-- Pandas `median` of a list of (non-NaN) values: middle element of the
sorted list, or the average of the two middle elements for an even count.
Junk value 0 for the empty list (pandas would give NaN; the script only
takes medians of non-empty groups). -/
def median (xs : List Rat) : Rat :=
  let s := sortRats xs
  let n := s.length
  if n % 2 = 1 then s.getD (n / 2) 0
  else (s.getD (n / 2 - 1) 0 + s.getD (n / 2) 0) / 2

/-- Pandas `mean` with default `skipna=True`: mean of the present values,
NaN (`none`) if every value is missing. -/
def meanOpt (xs : List (Option Rat)) : Option Rat :=
  match xs.filterMap id with
  | [] => none
  | v => some (v.sum / (v.length : Rat))

/-! ### Grouping -/

/-- Grouping key of both `groupby` calls:
`(Town, Year, Property Type, Residential Type)`. -/
abbrev Key := String × Int × String × String

/-- Key of a cleaned row. -/
def keyOf (r : CleanRow) : Key :=
  (r.town, r.year, r.propertyType, r.residentialType)

/-- The rows of a group: every cleaned row whose key equals `k`. -/
def rowsWithKey (rows : List CleanRow) (k : Key) : List CleanRow :=
  rows.filter (fun r => decide (keyOf r = k))

/-- The three aggregated columns `NumSales`, `MedianSale`, `AvgSalesRatio`.
`NumSales` is pandas `count` on `Sale Amount`; after `dropna` every
`Sale Amount` in a group is present, so the count is the group size. -/
structure AggStats where
  numSales : Nat
  medianSale : Rat
  avgSalesRatio : Option Rat
deriving DecidableEq

/-- Aggregation of one (non-empty) group of cleaned rows, as in the
`.agg(...)` of lines 48-52. -/
def groupStats (g : List CleanRow) : AggStats :=
  { numSales := g.length
    medianSale := median (g.map (fun r => r.saleAmount))
    avgSalesRatio := meanOpt (g.map (fun r => r.salesRatio)) }

/-- `tidy_chunk` (lines 28-55): clean a chunk, then group by the key and
aggregate.  The resulting partial-aggregate table is modelled as a function
from keys to optional statistics (`none` = the key has no rows in this
chunk, hence no row in the groupby result). -/
def tidy_chunk (chunk : List RawRow) (k : Key) : Option AggStats :=
  let g := rowsWithKey (cleanChunk chunk) k
  if g = [] then none else some (groupStats g)

/-- `partials` (lines 59-62): the list of per-chunk partial aggregates. -/
def partials (chunks : List (List RawRow)) : List (Key → Option AggStats) :=
  chunks.map tidy_chunk

/-- `agg` (lines 64-73): concatenate the partial aggregates, regroup by the
same key, and for each group sum the counts, take the median of the
per-chunk medians and the mean of the per-chunk means.  For a fixed key
the concatenated table contributes one row per chunk in which the key
occurs. -/
def agg (chunks : List (List RawRow)) (k : Key) : Option AggStats :=
  let per := (partials chunks).filterMap (fun t => t k)
  if per = [] then none
  else
    some { numSales := (per.map (fun s => s.numSales)).sum
           medianSale := median (per.map (fun s => s.medianSale))
           avgSalesRatio := meanOpt (per.map (fun s => s.avgSalesRatio)) }

/-! ### Export tables -/

/-- All cleaned rows of the whole input, in order. -/
def cleanedAll (chunks : List (List RawRow)) : List CleanRow :=
  (chunks.map cleanChunk).flatten

/-- Code-point comparison of strings as lists of characters (pandas sorts
object columns by this order). -/
def strLtB : List Char → List Char → Bool
  | [], [] => false
  | [], _ :: _ => true
  | _ :: _, [] => false
  | x :: xs, y :: ys =>
    if x.toNat < y.toNat then true
    else if y.toNat < x.toNat then false
    else strLtB xs ys

/-- Lexicographic order on keys used by `sort_values(["Town", "Year",
"Property Type", "Residential Type"])`. -/
def keyLtB (a b : Key) : Bool :=
  if strLtB a.1.data b.1.data then true
  else if strLtB b.1.data a.1.data then false
  else if a.2.1 < b.2.1 then true
  else if b.2.1 < a.2.1 then false
  else if strLtB a.2.2.1.data b.2.2.1.data then true
  else if strLtB b.2.2.1.data a.2.2.1.data then false
  else strLtB a.2.2.2.data b.2.2.2.data

/-- Insertion into a key list sorted by `keyLtB`. -/
def insertKey (x : Key) : List Key → List Key
  | [] => [x]
  | y :: ys => if keyLtB y x then y :: insertKey x ys else x :: y :: ys

/-- Sort a list of keys by `keyLtB`. -/
def sortKeys (ks : List Key) : List Key :=
  ks.foldr insertKey []

/-- Remove duplicate keys (keeping one occurrence of each). -/
def dedupKeys : List Key → List Key
  | [] => []
  | k :: ks => if k ∈ ks then dedupKeys ks else k :: dedupKeys ks

/-- The distinct group keys of the final aggregate, in output order. -/
def aggKeys (chunks : List (List RawRow)) : List Key :=
  sortKeys (dedupKeys ((cleanedAll chunks).map keyOf))

/-- One row of the exported aggregate tables (`town_year_agg.csv` and the
two residential files before the column drop). -/
structure AggRow where
  town : String
  year : Int
  propertyType : String
  residentialType : String
  numSales : Nat
  medianSale : Rat
  avgSalesRatio : Option Rat
deriving DecidableEq

/-- The rows of the all-types export `town_year_agg.csv` (line 77), sorted
by key. -/
def aggRows (chunks : List (List RawRow)) : List AggRow :=
  (aggKeys chunks).filterMap (fun k =>
    (agg chunks k).map (fun s =>
      { town := k.1
        year := k.2.1
        propertyType := k.2.2.1
        residentialType := k.2.2.2
        numSales := s.numSales
        medianSale := s.medianSale
        avgSalesRatio := s.avgSalesRatio }))

/-- The residential whitelist of lines 80-84. -/
def RES_TYPES : List String :=
  ["Residential", "Single Family", "Two Family", "Three Family",
   "Four Family", "Condo", "Apartments", "Apartment", "Townhouse",
   "Co-op", "Condominium"]

/-- `agg_res` (line 85): the all-types rows whose stripped `Property Type`
is in the whitelist. -/
def agg_res (chunks : List (List RawRow)) : List AggRow :=
  (aggRows chunks).filter (fun r => decide (pyStrip r.propertyType ∈ RES_TYPES))

/-- Line 89: `replace({"": "Unspecified"}).fillna("Unspecified")` on the
`Residential Type` column.  The `fillna` is inoperative: the column was
cast with `.astype(str)` inside `tidy_chunk`, so it holds no NaN (a missing
cell already became the string "nan"). -/
def sentinelRT (s : String) : String :=
  if s = "" then "Unspecified" else s

/-- The rows of `town_year_residential_bytype.csv` (lines 88-91). -/
def agg_res_bytype (chunks : List (List RawRow)) : List AggRow :=
  (agg_res chunks).map (fun r => { r with residentialType := sentinelRT r.residentialType })

/-- One row of `town_year_residential.csv`: the aggregate row with the
`Residential Type` column dropped. -/
structure AggRowNoRT where
  town : String
  year : Int
  propertyType : String
  numSales : Nat
  medianSale : Rat
  avgSalesRatio : Option Rat
deriving DecidableEq

/-- `drop(columns=["Residential Type"])` on one row. -/
def dropRT (r : AggRow) : AggRowNoRT :=
  { town := r.town
    year := r.year
    propertyType := r.propertyType
    numSales := r.numSales
    medianSale := r.medianSale
    avgSalesRatio := r.avgSalesRatio }

/-- `agg_res_simple` (line 95): the mutated `agg_res` frame (the sentinel
replacement of line 89 happened in place) with the `Residential Type`
column dropped. -/
def agg_res_simple (chunks : List (List RawRow)) : List AggRowNoRT :=
  (agg_res_bytype chunks).map dropRT

/-- The non-empty per-chunk groups for a key: for each chunk, the cleaned
rows of that chunk carrying the key, chunks without such rows omitted —
exactly the rows the concatenated partial aggregates contribute for that
key. -/
def chunkGroups (chunks : List (List RawRow)) (k : Key) : List (List CleanRow) :=
  (chunks.map (fun c => rowsWithKey (cleanChunk c) k)).filter (fun g => decide (g ≠ []))

/-- A sample raw row for concrete witnesses: Town "Avon", no recording
date, list year 2020, the given sale amount, missing sales ratio,
`Residential` with the given subtype. -/
def exRow (amt : Rat) (rt : String) : RawRow :=
  { serialNumber := none
    listYear := some 2020
    dateRecordedYear := none
    town := some "Avon"
    saleAmount := some amt
    salesRatio := none
    propertyType := some "Residential"
    residentialType := some rt }

/-! ### Character-level facts about the ASCII case maps -/

theorem toNat_ofNat_small (n : Nat) (h : n < 55296) : (Char.ofNat n).toNat = n := by
  have hv : n.isValidChar := Or.inl h
  simp [Char.ofNat, hv, Char.ofNatAux, Char.toNat, UInt32.toNat, BitVec.toNat_ofNatLt]

theorem isLower_iff (c : Char) : c.isLower = true ↔ 97 ≤ c.toNat ∧ c.toNat ≤ 122 := by
  simp [Char.isLower, Char.toNat]
  exact Iff.rfl

theorem isUpper_iff (c : Char) : c.isUpper = true ↔ 65 ≤ c.toNat ∧ c.toNat ≤ 90 := by
  simp [Char.isUpper, Char.toNat]
  exact Iff.rfl

theorem isAlpha_iff (c : Char) :
    c.isAlpha = true ↔ (65 ≤ c.toNat ∧ c.toNat ≤ 90) ∨ (97 ≤ c.toNat ∧ c.toNat ≤ 122) := by
  simp [Char.isAlpha, ← isUpper_iff, ← isLower_iff]

theorem toUpper_toNat (c : Char) (h : 97 ≤ c.toNat ∧ c.toNat ≤ 122) :
    (Char.toUpper c).toNat = c.toNat - 32 := by
  unfold Char.toUpper
  simp only [ge_iff_le, h, and_self, if_true]
  exact toNat_ofNat_small _ (by omega)

theorem toUpper_of_not (c : Char) (h : ¬(97 ≤ c.toNat ∧ c.toNat ≤ 122)) :
    Char.toUpper c = c := by
  show (if c.toNat ≥ 97 ∧ c.toNat ≤ 122 then Char.ofNat (c.toNat - 32) else c) = c
  rw [if_neg (by omega)]

theorem toLower_toNat (c : Char) (h : 65 ≤ c.toNat ∧ c.toNat ≤ 90) :
    (Char.toLower c).toNat = c.toNat + 32 := by
  unfold Char.toLower
  simp only [ge_iff_le, h, and_self, if_true]
  exact toNat_ofNat_small _ (by omega)

theorem toLower_of_not (c : Char) (h : ¬(65 ≤ c.toNat ∧ c.toNat ≤ 90)) :
    Char.toLower c = c := by
  show (if c.toNat ≥ 65 ∧ c.toNat ≤ 90 then Char.ofNat (c.toNat + 32) else c) = c
  rw [if_neg (by omega)]

theorem isAlpha_toUpper (c : Char) : (Char.toUpper c).isAlpha = c.isAlpha := by
  by_cases h : 97 ≤ c.toNat ∧ c.toNat ≤ 122
  · have h1 := toUpper_toNat c h
    have h2 : c.isAlpha = true := (isAlpha_iff c).mpr (Or.inr h)
    have h3 : (Char.toUpper c).isAlpha = true := (isAlpha_iff _).mpr (Or.inl (by omega))
    rw [h2, h3]
  · rw [toUpper_of_not c h]

theorem isAlpha_toLower (c : Char) : (Char.toLower c).isAlpha = c.isAlpha := by
  by_cases h : 65 ≤ c.toNat ∧ c.toNat ≤ 90
  · have h1 := toLower_toNat c h
    have h2 : c.isAlpha = true := (isAlpha_iff c).mpr (Or.inl h)
    have h3 : (Char.toLower c).isAlpha = true := (isAlpha_iff _).mpr (Or.inr (by omega))
    rw [h2, h3]
  · rw [toLower_of_not c h]

theorem toUpper_toUpper (c : Char) : Char.toUpper (Char.toUpper c) = Char.toUpper c := by
  by_cases h : 97 ≤ c.toNat ∧ c.toNat ≤ 122
  · have h1 := toUpper_toNat c h
    exact toUpper_of_not _ (by omega)
  · rw [toUpper_of_not c h]
    exact toUpper_of_not c h

theorem toLower_toLower (c : Char) : Char.toLower (Char.toLower c) = Char.toLower c := by
  by_cases h : 65 ≤ c.toNat ∧ c.toNat ≤ 90
  · have h1 := toLower_toNat c h
    exact toLower_of_not _ (by omega)
  · rw [toLower_of_not c h]
    exact toLower_of_not c h

theorem whitespace_toNat (c : Char) (h : c.isWhitespace = true) :
    c.toNat = 32 ∨ c.toNat = 9 ∨ c.toNat = 13 ∨ c.toNat = 10 := by
  simp [Char.isWhitespace] at h
  rcases h with ((h | h) | h) | h <;> subst h <;> simp [Char.toNat]

theorem isWhitespace_toUpper (c : Char) : (Char.toUpper c).isWhitespace = c.isWhitespace := by
  by_cases h : 97 ≤ c.toNat ∧ c.toNat ≤ 122
  · have h1 := toUpper_toNat c h
    by_cases hw : (Char.toUpper c).isWhitespace = true
    · have := whitespace_toNat _ hw
      omega
    · by_cases hw2 : c.isWhitespace = true
      · have := whitespace_toNat _ hw2
        omega
      · rw [Bool.eq_false_iff.mpr hw, Bool.eq_false_iff.mpr hw2]
  · rw [toUpper_of_not c h]

theorem isWhitespace_toLower (c : Char) : (Char.toLower c).isWhitespace = c.isWhitespace := by
  by_cases h : 65 ≤ c.toNat ∧ c.toNat ≤ 90
  · have h1 := toLower_toNat c h
    by_cases hw : (Char.toLower c).isWhitespace = true
    · have := whitespace_toNat _ hw
      omega
    · by_cases hw2 : c.isWhitespace = true
      · have := whitespace_toNat _ hw2
        omega
      · rw [Bool.eq_false_iff.mpr hw, Bool.eq_false_iff.mpr hw2]
  · rw [toLower_of_not c h]

/-! ### Facts about `pyTitle` and `pyStrip` -/

theorem titleAux_map_ws (cs : List Char) : ∀ b,
    (pyTitleAux b cs).map Char.isWhitespace = cs.map Char.isWhitespace := by
  induction cs with
  | nil => intro b; rfl
  | cons c cs ih =>
    intro b
    by_cases ha : c.isAlpha = true
    · simp only [pyTitleAux, ha, if_true, List.map_cons, ih true]
      cases b with
      | false => simp [isWhitespace_toUpper]
      | true => simp [isWhitespace_toLower]
    · simp only [pyTitleAux, Bool.not_eq_true] at ha
      simp only [pyTitleAux, ha, Bool.false_eq_true, if_false, List.map_cons, ih false]

theorem titleAux_idem (cs : List Char) : ∀ b,
    pyTitleAux b (pyTitleAux b cs) = pyTitleAux b cs := by
  induction cs with
  | nil => intro b; rfl
  | cons c cs ih =>
    intro b
    by_cases ha : c.isAlpha = true
    · cases b with
      | false =>
        have hd : (Char.toUpper c).isAlpha = true := by rw [isAlpha_toUpper]; exact ha
        simp only [pyTitleAux, ha, if_true, if_false, Bool.false_eq_true, hd,
          toUpper_toUpper, ih true]
      | true =>
        have hd : (Char.toLower c).isAlpha = true := by rw [isAlpha_toLower]; exact ha
        simp only [pyTitleAux, ha, if_true, hd, toLower_toLower, ih true]
    · simp only [Bool.not_eq_true] at ha
      simp only [pyTitleAux, ha, Bool.false_eq_true, if_false, ih false]

theorem dropWhile_append_single (p : Char → Bool) (l : List Char) (c : Char)
    (h : p c = false) : (l ++ [c]).dropWhile p = l.dropWhile p ++ [c] := by
  induction l with
  | nil => simp [List.dropWhile, h]
  | cons a l ih =>
    by_cases hp : p a = true
    · simp [List.dropWhile_cons, hp, ih]
    · simp only [Bool.not_eq_true] at hp
      simp [List.dropWhile_cons, hp]

theorem length_dropWhile_le (p : Char → Bool) (l : List Char) :
    (l.dropWhile p).length ≤ l.length := by
  induction l with
  | nil => simp
  | cons c t ih =>
    rw [List.dropWhile_cons]
    split
    · exact le_trans ih (by simp)
    · exact le_refl _

theorem dropWhile_eq_self_of_map_eq (p : Char → Bool) (l₁ l₂ : List Char)
    (h : l₁.map p = l₂.map p) (h2 : l₂.dropWhile p = l₂) :
    l₁.dropWhile p = l₁ := by
  cases l₁ with
  | nil => rfl
  | cons c t =>
    cases l₂ with
    | nil => simp at h
    | cons d t2 =>
      simp only [List.map_cons, List.cons.injEq] at h
      by_cases hp : p d = true
      · exfalso
        rw [List.dropWhile_cons, if_pos hp] at h2
        have := length_dropWhile_le p t2
        have := congrArg List.length h2
        simp at this
        omega
      · simp only [Bool.not_eq_true] at hp
        rw [List.dropWhile_cons, if_neg (by rw [h.1, hp]; exact Bool.false_ne_true)]

theorem dropWhile_dropWhile (p : Char → Bool) (l : List Char) :
    (l.dropWhile p).dropWhile p = l.dropWhile p := by
  induction l with
  | nil => rfl
  | cons c t ih =>
    by_cases hp : p c = true
    · rw [List.dropWhile_cons, if_pos hp, ih]
    · rw [List.dropWhile_cons, if_neg hp, List.dropWhile_cons, if_neg hp]

theorem stripList_front (l : List Char) :
    (pyStripList l).dropWhile Char.isWhitespace = pyStripList l := by
  unfold pyStripList
  generalize hm : l.dropWhile Char.isWhitespace = m
  have hm2 : m.dropWhile Char.isWhitespace = m := by
    rw [← hm]; exact dropWhile_dropWhile _ l
  cases m with
  | nil => rfl
  | cons c t =>
    have hc : c.isWhitespace = false := by
      by_cases hp : c.isWhitespace = true
      · exfalso
        rw [List.dropWhile_cons, if_pos hp] at hm2
        have := length_dropWhile_le Char.isWhitespace t
        have := congrArg List.length hm2
        simp at this
        omega
      · simpa using hp
    rw [dropTrail, List.reverse_cons, dropWhile_append_single _ _ _ hc,
      List.reverse_append]
    simp only [List.reverse_cons, List.reverse_nil, List.nil_append,
      List.singleton_append]
    rw [List.dropWhile_cons, if_neg (by rw [hc]; exact Bool.false_ne_true)]

theorem stripList_back (l : List Char) :
    (pyStripList l).reverse.dropWhile Char.isWhitespace = (pyStripList l).reverse := by
  unfold pyStripList dropTrail
  rw [List.reverse_reverse]
  exact dropWhile_dropWhile _ _

theorem stripList_eq_self (l : List Char)
    (h1 : l.dropWhile Char.isWhitespace = l)
    (h2 : l.reverse.dropWhile Char.isWhitespace = l.reverse) :
    pyStripList l = l := by
  rw [pyStripList, h1, dropTrail, h2, List.reverse_reverse]

theorem data_mk (cs : List Char) : (String.mk cs).data = cs := rfl

theorem stripList_title_stripped (l : List Char) :
    pyStripList (pyTitleAux false (pyStripList l)) = pyTitleAux false (pyStripList l) := by
  apply stripList_eq_self
  · exact dropWhile_eq_self_of_map_eq _ _ (pyStripList l)
      (titleAux_map_ws (pyStripList l) false) (stripList_front l)
  · apply dropWhile_eq_self_of_map_eq _ _ (pyStripList l).reverse
    · rw [List.map_reverse, List.map_reverse, titleAux_map_ws]
    · exact stripList_back l

/-- C9: town normalisation — `.str.strip().str.title()` as applied on line
39 of `tidy_chunk` — is idempotent: applying it twice equals applying it
once. -/
theorem town_normalization_idempotent (s : String) :
    normTown (normTown s) = normTown s := by
  unfold normTown pyTitle pyStrip
  rw [data_mk, data_mk, stripList_title_stripped, titleAux_idem]

/-! ### Basic facts about the cleaning step -/

theorem tidyRow_none_of_saleAmount (r : RawRow) (h : r.saleAmount = none) :
    tidyRow r = none := by
  unfold tidyRow
  rw [h]
  cases pyYear r <;> rfl

theorem tidyRow_isSome_iff (r : RawRow) :
    (tidyRow r).isSome ↔ (pyYear r).isSome ∧ r.saleAmount.isSome := by
  unfold tidyRow
  cases pyYear r <;> cases r.saleAmount <;> simp

theorem tidyRow_salesRatio (r : RawRow) (c : CleanRow) (h : tidyRow r = some c) :
    c.salesRatio = r.salesRatio := by
  unfold tidyRow at h
  cases hy : pyYear r with
  | none => rw [hy] at h; cases r.saleAmount <;> simp at h
  | some y =>
    cases ha : r.saleAmount with
    | none => rw [hy, ha] at h; simp at h
    | some amt =>
      rw [hy, ha] at h
      simp only [Option.some.injEq] at h
      rw [← h]

/-! ### The merged aggregate as a function of the per-chunk groups -/

theorem partials_filterMap (chunks : List (List RawRow)) (k : Key) :
    (partials chunks).filterMap (fun t => t k) = (chunkGroups chunks k).map groupStats := by
  induction chunks with
  | nil => rfl
  | cons c cs ih =>
    unfold partials at ih ⊢
    rw [List.map_cons, List.filterMap_cons]
    unfold chunkGroups at ih ⊢
    rw [List.map_cons, List.filter_cons]
    by_cases hg : rowsWithKey (cleanChunk c) k = []
    · have ht : tidy_chunk c k = none := by
        unfold tidy_chunk
        rw [hg]
        rfl
      rw [ht, hg]
      simp only [ne_eq, not_true_eq_false, decide_False, Bool.false_eq_true, if_false]
      exact ih
    · have ht : tidy_chunk c k = some (groupStats (rowsWithKey (cleanChunk c) k)) := by
        unfold tidy_chunk
        rw [if_neg hg]
      rw [ht]
      simp only [ne_eq, hg, not_false_eq_true, decide_True, if_true, List.map_cons]
      rw [ih]

theorem agg_eq_some_iff (chunks : List (List RawRow)) (k : Key) (s : AggStats) :
    agg chunks k = some s ↔
      (chunkGroups chunks k ≠ [] ∧
        s = { numSales := (((chunkGroups chunks k).map groupStats).map (fun t => t.numSales)).sum
              medianSale := median (((chunkGroups chunks k).map groupStats).map (fun t => t.medianSale))
              avgSalesRatio := meanOpt (((chunkGroups chunks k).map groupStats).map (fun t => t.avgSalesRatio)) }) := by
  unfold agg
  rw [partials_filterMap]
  by_cases hg : chunkGroups chunks k = []
  · simp [hg]
  · have : (chunkGroups chunks k).map groupStats ≠ [] := by
      simpa using hg
    simp only [this, if_neg, hg, ne_eq, not_false_eq_true, true_and]
    constructor
    · intro h
      exact (Option.some.injEq _ _ ▸ h).symm
    · intro h
      rw [h]

/-- C4: the global (stage-2) aggregation regroups the concatenated
per-chunk partial aggregates by key and, for every group of the final
aggregate, outputs NumSales as the sum of the per-chunk counts, MedianSale
as the median of the per-chunk medians, and AvgSalesRatio as the unweighted
mean of the per-chunk means. -/
theorem global_agg_merges_partials (chunks : List (List RawRow)) (k : Key)
    (s : AggStats) (h : agg chunks k = some s) :
    s.numSales = ((chunkGroups chunks k).map List.length).sum ∧
    s.medianSale = median ((chunkGroups chunks k).map (fun g => median (g.map (fun r => r.saleAmount)))) ∧
    s.avgSalesRatio = meanOpt ((chunkGroups chunks k).map (fun g => meanOpt (g.map (fun r => r.salesRatio)))) := by
  obtain ⟨-, hs⟩ := (agg_eq_some_iff chunks k s).mp h
  subst hs
  refine ⟨?_, ?_, ?_⟩ <;> simp [List.map_map, Function.comp_def, groupStats]

theorem global_agg_merges_partials_witness :
    agg [[exRow 100 "Condo"]] ("Avon", 2020, "Residential", "Condo") =
      some { numSales := 1, medianSale := 100, avgSalesRatio := none } ∧
    ({ numSales := 1, medianSale := 100, avgSalesRatio := none } : AggStats).numSales =
      ((chunkGroups [[exRow 100 "Condo"]] ("Avon", 2020, "Residential", "Condo")).map List.length).sum := by
  refine ⟨by decide, ?_⟩
  exact (global_agg_merges_partials [[exRow 100 "Condo"]] ("Avon", 2020, "Residential", "Condo")
    { numSales := 1, medianSale := 100, avgSalesRatio := none } (by decide)).1

theorem sum_lengths_filter_ne (gs : List (List CleanRow)) :
    ((gs.filter (fun g => decide (g ≠ []))).map List.length).sum = (gs.map List.length).sum := by
  induction gs with
  | nil => rfl
  | cons g gs ih =>
    rw [List.filter_cons]
    by_cases hg : g = []
    · subst hg
      simpa using ih
    · simp only [ne_eq, hg, not_false_eq_true, decide_True, if_true, List.map_cons,
        List.sum_cons, ih]

/-- C6: for every group key of the final aggregate, the output NumSales
equals the number of cleaned rows, across all chunks, whose key matches. -/
theorem numsales_counts_cleaned_rows (chunks : List (List RawRow)) (k : Key)
    (s : AggStats) (h : agg chunks k = some s) :
    s.numSales = (cleanedAll chunks).countP (fun r => decide (keyOf r = k)) := by
  obtain ⟨-, hs⟩ := (agg_eq_some_iff chunks k s).mp h
  subst hs
  show (((chunkGroups chunks k).map groupStats).map (fun t => t.numSales)).sum = _
  rw [List.map_map]
  have h1 : ((chunkGroups chunks k).map ((fun t => t.numSales) ∘ groupStats)).sum
      = ((chunkGroups chunks k).map List.length).sum := by
    simp [Function.comp_def, groupStats]
  rw [h1]
  unfold chunkGroups
  rw [sum_lengths_filter_ne, cleanedAll, List.countP_flatten, List.map_map, List.map_map]
  congr 1
  apply List.map_congr_left
  intro c _
  simp only [Function.comp_def, rowsWithKey]
  rw [List.countP_eq_length_filter]

theorem numsales_counts_cleaned_rows_witness :
    agg [[exRow 100 "Condo"]] ("Avon", 2020, "Residential", "Condo") =
      some { numSales := 1, medianSale := 100, avgSalesRatio := none } ∧
    ({ numSales := 1, medianSale := 100, avgSalesRatio := none } : AggStats).numSales =
      (cleanedAll [[exRow 100 "Condo"]]).countP
        (fun r => decide (keyOf r = ("Avon", 2020, "Residential", "Condo"))) := by
  refine ⟨by decide, ?_⟩
  exact numsales_counts_cleaned_rows [[exRow 100 "Condo"]] ("Avon", 2020, "Residential", "Condo")
    { numSales := 1, medianSale := 100, avgSalesRatio := none } (by decide)

/-! ### Congruence: every export depends only on the cleaned chunks -/

theorem tidy_chunk_congr (c₁ c₂ : List RawRow) (h : cleanChunk c₁ = cleanChunk c₂) :
    tidy_chunk c₁ = tidy_chunk c₂ := by
  funext k
  unfold tidy_chunk
  rw [h]

theorem partials_congr (c₁ : List (List RawRow)) : ∀ c₂ : List (List RawRow),
    c₁.map cleanChunk = c₂.map cleanChunk → partials c₁ = partials c₂ := by
  induction c₁ with
  | nil =>
    intro c₂ h
    cases c₂ with
    | nil => rfl
    | cons b bs => simp at h
  | cons a as ih =>
    intro c₂ h
    cases c₂ with
    | nil => simp at h
    | cons b bs =>
      simp only [List.map_cons, List.cons.injEq] at h
      unfold partials
      rw [List.map_cons, List.map_cons, tidy_chunk_congr a b h.1]
      have := ih bs h.2
      unfold partials at this
      rw [this]

theorem agg_congr (c₁ c₂ : List (List RawRow))
    (h : c₁.map cleanChunk = c₂.map cleanChunk) : agg c₁ = agg c₂ := by
  funext k
  unfold agg
  rw [partials_congr c₁ c₂ h]

theorem cleanedAll_congr (c₁ c₂ : List (List RawRow))
    (h : c₁.map cleanChunk = c₂.map cleanChunk) : cleanedAll c₁ = cleanedAll c₂ := by
  unfold cleanedAll
  rw [h]

theorem aggRows_congr (c₁ c₂ : List (List RawRow))
    (h : c₁.map cleanChunk = c₂.map cleanChunk) : aggRows c₁ = aggRows c₂ := by
  unfold aggRows aggKeys
  rw [cleanedAll_congr c₁ c₂ h, agg_congr c₁ c₂ h]

/-- C8: a row whose Sale Amount failed numeric parsing (NaN after
coercion) contributes to no group of any export: removing it from its
chunk changes neither the merged aggregate at any key nor any of the three
exported tables. -/
theorem unparseable_amount_no_contribution (pre post : List RawRow)
    (cl cr : List (List RawRow)) (r : RawRow) (h : r.saleAmount = none) :
    (∀ k, agg (cl ++ (pre ++ r :: post) :: cr) k = agg (cl ++ (pre ++ post) :: cr) k) ∧
    aggRows (cl ++ (pre ++ r :: post) :: cr) = aggRows (cl ++ (pre ++ post) :: cr) ∧
    agg_res_bytype (cl ++ (pre ++ r :: post) :: cr) = agg_res_bytype (cl ++ (pre ++ post) :: cr) ∧
    agg_res_simple (cl ++ (pre ++ r :: post) :: cr) = agg_res_simple (cl ++ (pre ++ post) :: cr) := by
  have hchunk : cleanChunk (pre ++ r :: post) = cleanChunk (pre ++ post) := by
    unfold cleanChunk
    rw [List.filterMap_append, List.filterMap_append, List.filterMap_cons,
      tidyRow_none_of_saleAmount r h]
  have hmap : (cl ++ (pre ++ r :: post) :: cr).map cleanChunk
      = (cl ++ (pre ++ post) :: cr).map cleanChunk := by
    rw [List.map_append, List.map_append, List.map_cons, List.map_cons, hchunk]
  have hrows := aggRows_congr _ _ hmap
  refine ⟨fun k => by rw [agg_congr _ _ hmap], hrows, ?_, ?_⟩
  · unfold agg_res_bytype agg_res
    rw [hrows]
  · unfold agg_res_simple agg_res_bytype agg_res
    rw [hrows]

theorem unparseable_amount_no_contribution_witness :
    ({ exRow 100 "Condo" with saleAmount := none } : RawRow).saleAmount = none ∧
    aggRows [[{ exRow 100 "Condo" with saleAmount := none }, exRow 300 "Condo"]] =
      aggRows [[exRow 300 "Condo"]] := by
  refine ⟨rfl, ?_⟩
  exact (unparseable_amount_no_contribution [] [exRow 300 "Condo"] [] []
    { exRow 100 "Condo" with saleAmount := none } rfl).2.1

/-- C1: evidence against the claim that rows with missing Town are
dropped.  `astype(str)` turns a NaN Town into the string "nan" before
`dropna` runs, so a row with missing Town but valid Year and Sale Amount
survives the cleaning step of `tidy_chunk` with Town "Nan" (after
title-casing), instead of being dropped. -/
theorem town_missing_row_survives :
    cleanChunk [{ exRow 100 "Condo" with town := none }] =
      [{ town := "Nan", year := 2020, saleAmount := 100, salesRatio := none,
         propertyType := "Residential", residentialType := "Condo" }] := by
  decide

/-- C2: evidence against the claim that a missing Residential Type is
exported as "Unspecified".  A NaN Residential Type became the string "nan"
inside `tidy_chunk` (`astype(str)`), so `replace({"": ...}).fillna(...)`
does not touch it and the by-subtype export carries "nan".  A blank (after
strip) Residential Type, by contrast, is indeed exported as
"Unspecified". -/
theorem missing_restype_export_nan :
    agg_res_bytype [[{ exRow 100 "Condo" with residentialType := none }]] =
      [{ town := "Avon", year := 2020, propertyType := "Residential",
         residentialType := "nan", numSales := 1, medianSale := 100,
         avgSalesRatio := none }] ∧
    agg_res_bytype [[{ exRow 100 "Condo" with residentialType := some " " }]] =
      [{ town := "Avon", year := 2020, propertyType := "Residential",
         residentialType := "Unspecified", numSales := 1, medianSale := 100,
         avgSalesRatio := none }] := by
  constructor <;> decide

/-- C3: counterexample to the claim that a row with a malformed Sales
Ratio is dropped during cleaning: a row whose Sales Ratio coerced to
missing but whose Town, Year and Sale Amount are valid survives the
cleaning step of `tidy_chunk`. -/
theorem malformed_ratio_row_survives :
    (exRow 100 "Condo").salesRatio = none ∧
    cleanChunk [exRow 100 "Condo"] =
      [{ town := "Avon", year := 2020, saleAmount := 100, salesRatio := none,
         propertyType := "Residential", residentialType := "Condo" }] := by
  constructor <;> decide

/-- C3 (amended): malformed numeric/date fields are coerced to missing
values, and a row is dropped by the cleaning step exactly when the derived
Year or the Sale Amount is missing; a malformed Sales Ratio is carried
through as a missing value on the surviving row, never surfaced as an
error. -/
theorem cleaning_drop_characterization :
    (∀ r : RawRow, (tidyRow r).isSome ↔ ((pyYear r).isSome ∧ r.saleAmount.isSome)) ∧
    (∀ (r : RawRow) (c : CleanRow), tidyRow r = some c → c.salesRatio = r.salesRatio) :=
  ⟨tidyRow_isSome_iff, tidyRow_salesRatio⟩

theorem cleaning_drop_characterization_witness :
    tidyRow (exRow 100 "Condo") =
      some { town := "Avon", year := 2020, saleAmount := 100, salesRatio := none,
             propertyType := "Residential", residentialType := "Condo" } ∧
    ({ town := "Avon", year := 2020, saleAmount := 100, salesRatio := none,
       propertyType := "Residential", residentialType := "Condo" } : CleanRow).salesRatio =
      (exRow 100 "Condo").salesRatio := by
  refine ⟨by decide, ?_⟩
  exact cleaning_drop_characterization.2 (exRow 100 "Condo") _ (by decide)

/-- C5: counterexample.  Two rows that agree on (Town, Year, Property
Type) and have Sale Amounts 100 and 300 but carry different Residential
Types fall into two different groups of the 4-column groupby: the final
aggregate has two rows for that (Town, Year, Property Type) triple, with
MedianSale 100 and 300, and no row of the aggregate has MedianSale 200. -/
theorem two_rows_same_triple_median_not_200 :
    ((aggRows [[exRow 100 "Condo", exRow 300 "Single Family"]]).map
      (fun r => (r.town, r.year, r.propertyType))) =
      [("Avon", 2020, "Residential"), ("Avon", 2020, "Residential")] ∧
    ((aggRows [[exRow 100 "Condo", exRow 300 "Single Family"]]).map
      (fun r => r.medianSale)) = [100, 300] ∧
    (aggRows [[exRow 100 "Condo", exRow 300 "Single Family"]]).all
      (fun r => !(decide (r.medianSale = 200))) = true := by
  refine ⟨by decide, by decide, by decide⟩

theorem per_of_flatten_nil (chunks : List (List RawRow)) (h : chunks.flatten = [])
    (k : Key) : (partials chunks).filterMap (fun t => t k) = [] := by
  induction chunks with
  | nil => rfl
  | cons a as ih =>
    rw [List.flatten_cons, List.append_eq_nil] at h
    obtain ⟨ha, has⟩ := h
    subst ha
    unfold partials
    rw [List.map_cons, List.filterMap_cons]
    have : tidy_chunk [] k = none := rfl
    rw [this]
    exact ih has

theorem tidy_chunk_single (r : RawRow) (c : CleanRow) (k : Key)
    (ht : tidyRow r = some c) (hk : keyOf c = k) :
    tidy_chunk [r] k = some (groupStats [c]) := by
  have hclean : cleanChunk [r] = [c] := by
    unfold cleanChunk
    rw [List.filterMap_cons, ht]
    rfl
  unfold tidy_chunk
  rw [hclean]
  unfold rowsWithKey
  rw [List.filter_cons]
  simp only [hk, decide_True, if_true, List.filter_nil]
  rw [if_neg (by simp)]

theorem per_of_flatten_single (chunks : List (List RawRow)) (r : RawRow)
    (c : CleanRow) (k : Key) (h : chunks.flatten = [r]) (ht : tidyRow r = some c)
    (hk : keyOf c = k) :
    (partials chunks).filterMap (fun t => t k) = [groupStats [c]] := by
  induction chunks with
  | nil => simp at h
  | cons a as ih =>
    rw [List.flatten_cons] at h
    cases a with
    | nil =>
      rw [List.nil_append] at h
      unfold partials
      rw [List.map_cons, List.filterMap_cons]
      have : tidy_chunk [] k = none := rfl
      rw [this]
      exact ih h
    | cons x t =>
      rw [List.cons_append, List.cons.injEq] at h
      obtain ⟨hx, hrest⟩ := h
      rw [List.append_eq_nil] at hrest
      obtain ⟨htnil, hasnil⟩ := hrest
      subst hx
      subst htnil
      unfold partials
      rw [List.map_cons, List.filterMap_cons, tidy_chunk_single x c k ht hk]
      show groupStats [c] :: List.filterMap (fun t => t k) (List.map tidy_chunk as) = _
      have htail := per_of_flatten_nil as hasnil k
      unfold partials at htail
      rw [htail]

theorem tidy_chunk_pair (r₁ r₂ : RawRow) (c₁ c₂ : CleanRow) (k : Key)
    (h1 : tidyRow r₁ = some c₁) (h2 : tidyRow r₂ = some c₂)
    (hk1 : keyOf c₁ = k) (hk2 : keyOf c₂ = k) :
    tidy_chunk [r₁, r₂] k = some (groupStats [c₁, c₂]) := by
  have hclean : cleanChunk [r₁, r₂] = [c₁, c₂] := by
    unfold cleanChunk
    rw [List.filterMap_cons, h1]
    show c₁ :: List.filterMap tidyRow [r₂] = _
    rw [List.filterMap_cons, h2]
    rfl
  unfold tidy_chunk
  rw [hclean]
  unfold rowsWithKey
  rw [List.filter_cons, List.filter_cons]
  simp only [hk1, hk2, decide_True, if_true, List.filter_nil]
  rw [if_neg (by simp)]

theorem per_of_flatten_pair (chunks : List (List RawRow)) (r₁ r₂ : RawRow)
    (c₁ c₂ : CleanRow) (k : Key) (h : chunks.flatten = [r₁, r₂])
    (h1 : tidyRow r₁ = some c₁) (h2 : tidyRow r₂ = some c₂)
    (hk1 : keyOf c₁ = k) (hk2 : keyOf c₂ = k) :
    (partials chunks).filterMap (fun t => t k) = [groupStats [c₁, c₂]] ∨
    (partials chunks).filterMap (fun t => t k) = [groupStats [c₁], groupStats [c₂]] := by
  induction chunks with
  | nil => simp at h
  | cons a as ih =>
    rw [List.flatten_cons] at h
    cases a with
    | nil =>
      rw [List.nil_append] at h
      have hper : (partials (as)).filterMap (fun t => t k) = [groupStats [c₁, c₂]] ∨
          (partials (as)).filterMap (fun t => t k) = [groupStats [c₁], groupStats [c₂]] := ih h
      unfold partials
      rw [List.map_cons, List.filterMap_cons]
      have : tidy_chunk [] k = none := rfl
      rw [this]
      exact hper
    | cons x t =>
      rw [List.cons_append, List.cons.injEq] at h
      obtain ⟨hx, hrest⟩ := h
      subst hx
      cases t with
      | nil =>
        rw [List.nil_append] at hrest
        unfold partials
        rw [List.map_cons, List.filterMap_cons, tidy_chunk_single x c₁ k h1 hk1]
        refine Or.inr ?_
        show groupStats [c₁] :: List.filterMap (fun t => t k) (List.map tidy_chunk as) = _
        have htail := per_of_flatten_single as r₂ c₂ k hrest h2 hk2
        unfold partials at htail
        rw [htail]
      | cons y u =>
        rw [List.cons_append, List.cons.injEq] at hrest
        obtain ⟨hy, hrest2⟩ := hrest
        rw [List.append_eq_nil] at hrest2
        obtain ⟨hunil, hasnil⟩ := hrest2
        subst hy
        subst hunil
        unfold partials
        rw [List.map_cons, List.filterMap_cons, tidy_chunk_pair x y c₁ c₂ k h1 h2 hk1 hk2]
        refine Or.inl ?_
        show groupStats [c₁, c₂] :: List.filterMap (fun t => t k) (List.map tidy_chunk as) = _
        have htail := per_of_flatten_nil as hasnil k
        unfold partials at htail
        rw [htail]

theorem agg_of_per (chunks : List (List RawRow)) (k : Key) (ps : List AggStats)
    (hp : (partials chunks).filterMap (fun t => t k) = ps) (hne : ps ≠ []) :
    agg chunks k = some
      { numSales := (ps.map (fun s => s.numSales)).sum
        medianSale := median (ps.map (fun s => s.medianSale))
        avgSalesRatio := meanOpt (ps.map (fun s => s.avgSalesRatio)) } := by
  unfold agg
  rw [hp]
  show (if ps = [] then none else _) = _
  rw [if_neg hne]

theorem median_single (a : Rat) : median [a] = a := by
  simp [median, sortRats, insertSorted]

theorem median_100_300 : median [(100 : Rat), 300] = 200 := by
  norm_num [median, sortRats, insertSorted]

/-- C5 (amended): for two rows that agree on the full grouping key — Town,
Year, Property Type and Residential Type, since the groupby key includes
the residential subtype — with Sale Amounts 100 and 300, both surviving
cleaning, the final aggregate has a group at that key with MedianSale 200
(and NumSales 2), however the input is split into chunks. -/
theorem two_rows_same_key_median_200 (chunks : List (List RawRow))
    (r₁ r₂ : RawRow) (c₁ c₂ : CleanRow) (h : chunks.flatten = [r₁, r₂])
    (h1 : tidyRow r₁ = some c₁) (h2 : tidyRow r₂ = some c₂)
    (hk : keyOf c₁ = keyOf c₂) (ha1 : c₁.saleAmount = 100) (ha2 : c₂.saleAmount = 300) :
    ∃ s, agg chunks (keyOf c₁) = some s ∧ s.medianSale = 200 ∧ s.numSales = 2 := by
  rcases per_of_flatten_pair chunks r₁ r₂ c₁ c₂ (keyOf c₁) h h1 h2 rfl hk.symm with hp | hp
  · refine ⟨_, agg_of_per chunks _ _ hp (by simp), ?_, ?_⟩
    · show median ([groupStats [c₁, c₂]].map (fun s => s.medianSale)) = 200
      have hmed : (groupStats [c₁, c₂]).medianSale = 200 := by
        show median ([c₁, c₂].map (fun r => r.saleAmount)) = 200
        rw [List.map_cons, List.map_cons, List.map_nil, ha1, ha2, median_100_300]
      rw [List.map_cons, List.map_nil, hmed, median_single]
    · show ([groupStats [c₁, c₂]].map (fun s => s.numSales)).sum = 2
      simp [groupStats]
  · refine ⟨_, agg_of_per chunks _ _ hp (by simp), ?_, ?_⟩
    · show median ([groupStats [c₁], groupStats [c₂]].map (fun s => s.medianSale)) = 200
      have hmed1 : (groupStats [c₁]).medianSale = 100 := by
        show median ([c₁].map (fun r => r.saleAmount)) = 100
        rw [List.map_cons, List.map_nil, ha1, median_single]
      have hmed2 : (groupStats [c₂]).medianSale = 300 := by
        show median ([c₂].map (fun r => r.saleAmount)) = 300
        rw [List.map_cons, List.map_nil, ha2, median_single]
      rw [List.map_cons, List.map_cons, List.map_nil, hmed1, hmed2, median_100_300]
    · show ([groupStats [c₁], groupStats [c₂]].map (fun s => s.numSales)).sum = 2
      simp [groupStats]

theorem two_rows_same_key_median_200_witness :
    (∃ s, agg [[exRow 100 "Condo", exRow 300 "Condo"]]
        (keyOf { town := "Avon", year := 2020, saleAmount := 100, salesRatio := none,
                 propertyType := "Residential", residentialType := "Condo" }) = some s ∧
      s.medianSale = 200 ∧ s.numSales = 2) := by
  exact two_rows_same_key_median_200 [[exRow 100 "Condo", exRow 300 "Condo"]]
    (exRow 100 "Condo") (exRow 300 "Condo")
    { town := "Avon", year := 2020, saleAmount := 100, salesRatio := none,
      propertyType := "Residential", residentialType := "Condo" }
    { town := "Avon", year := 2020, saleAmount := 300, salesRatio := none,
      propertyType := "Residential", residentialType := "Condo" }
    (by decide) (by decide) (by decide) (by decide) (by decide) (by decide)

/-! ### Membership in the exported tables -/

theorem mem_insertKey (x k : Key) (ks : List Key) :
    k ∈ insertKey x ks ↔ k = x ∨ k ∈ ks := by
  induction ks with
  | nil => simp [insertKey]
  | cons y ys ih =>
    unfold insertKey
    by_cases hle : keyLtB y x = true
    · rw [if_pos hle]
      simp only [List.mem_cons, ih]
      tauto
    · rw [if_neg hle]
      simp only [List.mem_cons]

theorem mem_sortKeys (k : Key) (ks : List Key) : k ∈ sortKeys ks ↔ k ∈ ks := by
  induction ks with
  | nil => simp [sortKeys]
  | cons y ys ih =>
    show k ∈ insertKey y (sortKeys ys) ↔ _
    rw [mem_insertKey]
    simp only [List.mem_cons, ih]

theorem mem_dedupKeys (k : Key) (ks : List Key) : k ∈ dedupKeys ks ↔ k ∈ ks := by
  induction ks with
  | nil => simp [dedupKeys]
  | cons y ys ih =>
    unfold dedupKeys
    by_cases hy : y ∈ ys
    · rw [if_pos hy, ih]
      constructor
      · intro h
        exact List.mem_cons_of_mem y h
      · intro h
        rcases List.mem_cons.mp h with rfl | h2
        · exact hy
        · exact h2
    · rw [if_neg hy]
      simp only [List.mem_cons, ih]

theorem mem_aggKeys_iff (chunks : List (List RawRow)) (k : Key) :
    k ∈ aggKeys chunks ↔ ∃ r ∈ cleanedAll chunks, keyOf r = k := by
  unfold aggKeys
  rw [mem_sortKeys, mem_dedupKeys, List.mem_map]

theorem per_eq_nil_iff (chunks : List (List RawRow)) (k : Key) :
    (partials chunks).filterMap (fun t => t k) = [] ↔
      ∀ r ∈ cleanedAll chunks, keyOf r ≠ k := by
  rw [partials_filterMap]
  rw [List.map_eq_nil_iff]
  unfold chunkGroups
  rw [List.filter_eq_nil_iff]
  simp only [List.mem_map, decide_not, Bool.not_eq_true', decide_eq_false_iff_not,
    not_not, forall_exists_index, and_imp]
  unfold cleanedAll rowsWithKey
  constructor
  · intro hall r hr hk
    rw [List.mem_flatten] at hr
    obtain ⟨g, hg, hrg⟩ := hr
    rw [List.mem_map] at hg
    obtain ⟨c, hc, hcg⟩ := hg
    have hnil : List.filter (fun r => decide (keyOf r = k)) (cleanChunk c) = [] :=
      hall _ c hc rfl
    have hmem : r ∈ List.filter (fun r => decide (keyOf r = k)) (cleanChunk c) := by
      rw [List.mem_filter]
      refine ⟨by rw [hcg]; exact hrg, by simp [hk]⟩
    rw [hnil] at hmem
    exact List.not_mem_nil r hmem
  · intro hall g c hc hg
    subst hg
    rw [List.filter_eq_nil_iff]
    intro r hr
    simp only [decide_eq_true_eq]
    exact hall r (List.mem_flatten.mpr ⟨cleanChunk c, List.mem_map.mpr ⟨c, hc, rfl⟩, hr⟩)

theorem agg_of_per_nil (chunks : List (List RawRow)) (k : Key)
    (hp : (partials chunks).filterMap (fun t => t k) = []) : agg chunks k = none := by
  unfold agg
  rw [hp]
  rfl

theorem exists_row_of_agg_some (chunks : List (List RawRow)) (k : Key) (s : AggStats)
    (hs : agg chunks k = some s) : ∃ r ∈ cleanedAll chunks, keyOf r = k := by
  by_contra hno
  push_neg at hno
  rw [agg_of_per_nil chunks k ((per_eq_nil_iff chunks k).mpr hno)] at hs
  exact Option.noConfusion hs

theorem mem_aggRows_iff (chunks : List (List RawRow)) (a : AggRow) :
    a ∈ aggRows chunks ↔
      agg chunks (a.town, a.year, a.propertyType, a.residentialType) =
        some { numSales := a.numSales, medianSale := a.medianSale,
               avgSalesRatio := a.avgSalesRatio } := by
  unfold aggRows
  rw [List.mem_filterMap]
  constructor
  · rintro ⟨k, hkmem, hmk⟩
    rw [Option.map_eq_some'] at hmk
    obtain ⟨s, hs, hbuild⟩ := hmk
    subst hbuild
    exact hs
  · intro hs
    refine ⟨(a.town, a.year, a.propertyType, a.residentialType), ?_, ?_⟩
    · rw [mem_aggKeys_iff]
      exact exists_row_of_agg_some chunks _ _ hs
    · rw [hs]
      rfl

/-- C7: a row belongs to the residential-only export exactly when it is an
all-types row whose stripped Property Type is in the `RES_TYPES` whitelist,
with the Residential Type column dropped: the residential export is the
whitelist restriction of the all-types export. -/
theorem residential_export_iff (chunks : List (List RawRow)) (r : AggRowNoRT) :
    r ∈ agg_res_simple chunks ↔
      ∃ rt : String,
        ({ town := r.town, year := r.year, propertyType := r.propertyType,
           residentialType := rt, numSales := r.numSales,
           medianSale := r.medianSale, avgSalesRatio := r.avgSalesRatio } : AggRow) ∈
          aggRows chunks ∧
        pyStrip r.propertyType ∈ RES_TYPES := by
  unfold agg_res_simple agg_res_bytype agg_res
  simp only [List.mem_map, List.mem_filter]
  constructor
  · rintro ⟨b, ⟨a, ⟨ha, hwl⟩, hba⟩, hdrop⟩
    subst hba
    subst hdrop
    refine ⟨a.residentialType, ?_, ?_⟩
    · exact ha
    · simpa using hwl
  · rintro ⟨rt, hmem, hwl⟩
    refine ⟨{ town := r.town, year := r.year, propertyType := r.propertyType,
              residentialType := sentinelRT rt, numSales := r.numSales,
              medianSale := r.medianSale, avgSalesRatio := r.avgSalesRatio },
            ⟨{ town := r.town, year := r.year, propertyType := r.propertyType,
               residentialType := rt, numSales := r.numSales,
               medianSale := r.medianSale, avgSalesRatio := r.avgSalesRatio },
             ⟨hmem, by simpa using hwl⟩, rfl⟩, rfl⟩

/-- C10: the residential-only export is the by-subtype export with the
Residential Type column removed, row for row in the same order and with no
re-aggregation; since the sentinel replacement only touches the dropped
column, it equally is `agg_res` minus that column; and on an input whose
two rows differ only in Residential Type it contains two rows with the
same (Town, Year, Property Type) key. -/
theorem simple_export_is_bytype_minus_column :
    (∀ chunks, agg_res_simple chunks = (agg_res_bytype chunks).map dropRT) ∧
    (∀ chunks, agg_res_simple chunks = (agg_res chunks).map dropRT) ∧
    ((agg_res_simple [[exRow 100 "Condo", exRow 300 "Single Family"]]).map
        (fun r => (r.town, r.year, r.propertyType)) =
      [("Avon", 2020, "Residential"), ("Avon", 2020, "Residential")]) := by
  refine ⟨fun _ => rfl, ?_, by decide⟩
  intro chunks
  unfold agg_res_simple agg_res_bytype
  rw [List.map_map]
  rfl
